import Mathlib

/-!
Verification of the input-normalization and validation subsystem of
`leptonai/cli/autotune.py`: the list / auto-or-list value parsers, the
GPU resource-shape matcher, the cross-field completeness gate, and the
command boundary of the five autotune commands.

Python strings are modelled as `String` / `List Char` (ASCII semantics),
Python `int` as `Int`, Python `float` as `ℚ` (only truthiness and
pass-through matter for floats here), exceptions as `Except` errors.
-/

deriving instance DecidableEq for Except

namespace Autotune

/-! ## Character classes (ASCII semantics of the Python predicates used) -/

/-- Whitespace characters removed by Python `str.strip()` (ASCII). -/
def isPySpaceC (c : Char) : Bool :=
  c == ' ' || c == '\t' || c == '\n' || c == '\r' || c == '\x0b' || c == '\x0c'

/-- Decimal digit `0`-`9`. -/
def isDigitC (c : Char) : Bool :=
  decide (48 ≤ c.toNat) && decide (c.toNat ≤ 57)

/-- Numeric value of a digit character. -/
def digitVal (c : Char) : Nat := c.toNat - 48

/-- ASCII letter. -/
def isAlphaC (c : Char) : Bool :=
  (decide (65 ≤ c.toNat) && decide (c.toNat ≤ 90)) ||
  (decide (97 ≤ c.toNat) && decide (c.toNat ≤ 122))

/-- Character class `[a-zA-Z0-9\-]` of the resource-shape regexes. -/
def isShapeClassC (c : Char) : Bool :=
  isAlphaC c || isDigitC c || c == '-'

/-- Character class `\w` = `[a-zA-Z0-9_]` (ASCII). -/
def isWordC (c : Char) : Bool :=
  isAlphaC c || isDigitC c || c == '_'

/-- ASCII lowercasing of one character, as done by `str.lower()` and by
`re.IGNORECASE` literal matching. -/
def lowerC (c : Char) : Char :=
  if decide (65 ≤ c.toNat) && decide (c.toNat ≤ 90) then Char.ofNat (c.toNat + 32) else c

/-! ## Python string primitives -/

/-- Python `str.strip()` on a character list: drop whitespace from both ends. -/
def pyStripL (l : List Char) : List Char :=
  ((l.dropWhile isPySpaceC).reverse.dropWhile isPySpaceC).reverse

/-- Python `str.strip()`. -/
def pyStrip (s : String) : String := ⟨pyStripL s.data⟩

/-- Python `str.lower()` (ASCII). -/
def pyLowerL (l : List Char) : List Char := l.map lowerC

/-- Python `value.split(',')`: split on every comma, keeping empty pieces. -/
def splitCommaAux (acc : List Char) : List Char → List (List Char)
  | [] => [acc.reverse]
  | c :: rest =>
    if c = ',' then acc.reverse :: splitCommaAux [] rest
    else splitCommaAux (c :: acc) rest

/-- Python `value.split(',')`. -/
def splitComma (l : List Char) : List (List Char) := splitCommaAux [] l

/-- Python `',' in value`. -/
def containsComma (l : List Char) : Bool := l.any (fun c => c == ',')

/-- Digit run of Python `int()` after the first digit: decimal digits in which
a single underscore may occur between two digits (PEP 515). -/
def digitsCore (acc : Nat) : List Char → Option Nat
  | [] => some acc
  | c :: rest =>
    if c = '_' then
      match rest with
      | c2 :: rest2 =>
        if isDigitC c2 then digitsCore (acc * 10 + digitVal c2) rest2 else none
      | [] => none
    else if isDigitC c then digitsCore (acc * 10 + digitVal c) rest
    else none

/-- Nonempty digit run accepted by Python `int()` after the optional sign. -/
def parseUDigits : List Char → Option Nat
  | [] => none
  | c :: rest => if isDigitC c then digitsCore (digitVal c) rest else none

/-- Python `int(s)` on a string: surrounding whitespace, an optional sign,
then a nonempty digit run; `none` models `ValueError`. -/
def pyIntParseL (l : List Char) : Option Int :=
  match pyStripL l with
  | [] => none
  | c :: rest =>
    if c = '+' then (parseUDigits rest).map (fun n => (n : Int))
    else if c = '-' then (parseUDigits rest).map (fun n => -(n : Int))
    else (parseUDigits (c :: rest)).map (fun n => (n : Int))

/-- Decimal value of a digit string (specification-side reading of a numeral). -/
def decValL (l : List Char) : Nat :=
  l.foldl (fun a c => a * 10 + digitVal c) 0

/-! ## The two click parameter types -/

/-- Possible runtime types of the raw `value` argument of `convert`:
Python `None`, an already-structured list, a string, or an `int`. -/
inductive ConvValue where
  | vNone
  | vList (l : List Int)
  | vStr (s : String)
  | vInt (n : Int)
deriving DecidableEq, Repr

/-- Successful results of `convert`: `None`, a list of ints, or the string
`auto` returned by `IntListOrAutoType`. -/
inductive ConvResult where
  | rNone
  | rList (l : List Int)
  | rAuto
deriving DecidableEq, Repr

/-- Failures raised through `self.fail` (click `UsageError`s), tagged by which
`fail` call produced them, carrying the data interpolated into the message. -/
inductive ConvError where
  | parseList (token value : String)
  | parseScalar (value : String)
  | parseScalarAuto (value : String)
  | rangeList (n : Int)
  | rangeScalar (n : Int)
  | mixed (value : String)
  | badType
deriving DecidableEq, Repr

/-- The loop of `IntListType.convert` over the comma-split pieces:
strip each piece, skip empty pieces, parse as int (`parseList` on failure),
reject non-positive values (`rangeList`), collect in order. -/
def intListLoop (value : List Char) : List (List Char) → Except ConvError (List Int)
  | [] => .ok []
  | t :: ts =>
    let x := pyStripL t
    if x = [] then intListLoop value ts
    else
      match pyIntParseL x with
      | none => .error (.parseList ⟨x⟩ ⟨value⟩)
      | some n =>
        if n ≤ 0 then .error (.rangeList n)
        else (intListLoop value ts).map (fun r => n :: r)

/-- `IntListType.convert` from `autotune.py`. -/
def IntListType.convert : ConvValue → Except ConvError ConvResult
  | .vNone => .ok .rNone
  | .vList l => .ok (.rList l)
  | .vStr s =>
    let v := pyStripL s.data
    if v = [] then .ok (.rList [])
    else if containsComma v then (intListLoop v (splitComma v)).map .rList
    else
      match pyIntParseL v with
      | none => .error (.parseScalar ⟨v⟩)
      | some n => if n ≤ 0 then .error (.rangeScalar n) else .ok (.rList [n])
  | .vInt n => if n ≤ 0 then .error (.rangeScalar n) else .ok (.rList [n])

/-- The loop of `IntListOrAutoType.convert`: like `intListLoop`, but a piece
equal to `auto` case-insensitively fails with the mixing error first. -/
def intListOrAutoLoop (value : List Char) : List (List Char) → Except ConvError (List Int)
  | [] => .ok []
  | t :: ts =>
    let x := pyStripL t
    if x = [] then intListOrAutoLoop value ts
    else if pyLowerL x = "auto".data then .error (.mixed ⟨value⟩)
    else
      match pyIntParseL x with
      | none => .error (.parseList ⟨x⟩ ⟨value⟩)
      | some n =>
        if n ≤ 0 then .error (.rangeList n)
        else (intListOrAutoLoop value ts).map (fun r => n :: r)

/-- `IntListOrAutoType.convert` from `autotune.py`. -/
def IntListOrAutoType.convert : ConvValue → Except ConvError ConvResult
  | .vNone => .ok .rNone
  | .vList l => .ok (.rList l)
  | .vStr s =>
    let v := pyStripL s.data
    if v = [] then .ok (.rList [])
    else if pyLowerL v = "auto".data then .ok .rAuto
    else if containsComma v then (intListOrAutoLoop v (splitComma v)).map .rList
    else
      match pyIntParseL v with
      | none => .error (.parseScalarAuto ⟨v⟩)
      | some n => if n ≤ 0 then .error (.rangeScalar n) else .ok (.rList [n])
  | .vInt n => if n ≤ 0 then .error (.rangeScalar n) else .ok (.rList [n])

example : IntListType.convert (.vStr "2,4,8") = .ok (.rList [2, 4, 8]) := by decide
example : IntListType.convert (.vStr " 2 , 4 ,, 8 ") = .ok (.rList [2, 4, 8]) := by decide
example : IntListType.convert (.vStr "2,-1") = .error (.rangeList (-1)) := by decide
example : IntListType.convert (.vStr "a,b") = .error (.parseList "a" "a,b") := by decide
example : IntListType.convert (.vStr "-1,a") = .error (.rangeList (-1)) := by decide
example : IntListType.convert (.vStr "") = .ok (.rList []) := by decide
example : IntListType.convert (.vStr "7") = .ok (.rList [7]) := by decide
example : IntListOrAutoType.convert (.vStr " AUTO ") = .ok .rAuto := by decide
example : IntListOrAutoType.convert (.vStr "auto,2") = .error (.mixed "auto,2") := by decide
example : IntListOrAutoType.convert (.vStr "0,auto") = .error (.rangeList 0) := by decide

/-! ## Resource-shape matcher

The Python call `re.match(pattern, value, re.IGNORECASE)` succeeds when the pattern
matches at the START of the string, leaving any suffix unconstrained.  Each
of the five regexes of `GPU_RESOURCE_PATTERNS` is embedded as a prefix
matcher on the character list; greedy runs with backtracking coincide with
maximal runs here because no run class contains its follower character. -/

/-- Case-insensitive literal `gpu.` at the start (the `gpu\.` part of
patterns 1-3); returns the remainder on success. -/
def stripGpuDot : List Char → Option (List Char)
  | c1 :: c2 :: c3 :: c4 :: rest =>
    if lowerC c1 = 'g' ∧ lowerC c2 = 'p' ∧ lowerC c3 = 'u' ∧ c4 = '.' then some rest
    else none
  | _ => none

/-- The `x([a-zA-Z0-9\-]+)` tail of patterns 1 and 4 (prefix semantics:
an `x` then at least one class character). -/
def matchXClass : List Char → Bool
  | x :: c :: _ => lowerC x = 'x' ∧ isShapeClassC c
  | _ => false

/-- Pattern 1, `gpu\.(\d+)x([a-zA-Z0-9\-]+)`, matched at the start. -/
def matchP1 (l : List Char) : Bool :=
  match stripGpuDot l with
  | some r => decide (r.takeWhile isDigitC ≠ []) && matchXClass (r.dropWhile isDigitC)
  | none => false

/-- Pattern 2, `gpu\.([a-zA-Z0-9\-]+)\.(\w+)`, matched at the start. -/
def matchP2 (l : List Char) : Bool :=
  match stripGpuDot l with
  | some r =>
    decide (r.takeWhile isShapeClassC ≠ []) &&
    (match r.dropWhile isShapeClassC with
     | '.' :: w :: _ => isWordC w
     | _ => false)
  | none => false

/-- Pattern 3, `gpu\.([a-zA-Z0-9\-]+)`, matched at the start. -/
def matchP3 (l : List Char) : Bool :=
  match stripGpuDot l with
  | some (c :: _) => isShapeClassC c
  | _ => false

/-- Pattern 4, `(\d+)x([a-zA-Z0-9\-]+)`, matched at the start. -/
def matchP4 (l : List Char) : Bool :=
  decide (l.takeWhile isDigitC ≠ []) && matchXClass (l.dropWhile isDigitC)

/-- Pattern 5, `(\d+)x?`, matched at the start: any leading digit suffices. -/
def matchP5 : List Char → Bool
  | c :: _ => isDigitC c
  | [] => false

/-- `GPU_RESOURCE_PATTERNS`, in declaration order, as prefix matchers. -/
def GPU_RESOURCE_PATTERNS : List (List Char → Bool) :=
  [matchP1, matchP2, matchP3, matchP4, matchP5]

/-- The example shapes listed in the `validate_resource_shape` error message. -/
def shapeExamples : List String :=
  ["gpu.8xh200", "gpu.4xh100", "gpu.2xa100-40gb", "gpu.8xa100-80gb",
   "gpu.a10", "gpu.a10.6xlarge", "gpu.a100-40gb", "gpu.h100-sxm"]

/-- Errors raised by the two option callbacks (`click.BadParameter`s), tagged
by origin, carrying the data interpolated into the message. -/
inductive OptError where
  | requirementError
  | formatError (value : String) (examples : List String)
  | typeError
deriving DecidableEq, Repr

/-- `validate_resource_shape` from `autotune.py`: `None` passes through, a
string matching some pattern (first match wins, verdict-wise a disjunction)
is returned unchanged, anything else fails with the format error whose
message lists `examples[:5]`. -/
def validate_resource_shape (value : Option String) : Except OptError (Option String) :=
  match value with
  | none => .ok none
  | some v =>
    if GPU_RESOURCE_PATTERNS.any (fun p => p v.data) then .ok (some v)
    else .error (.formatError v (shapeExamples.take 5))

/-! Full-match variants of the five patterns (the entire string is consumed),
used to relate prefix matching to matching in full. -/

/-- Pattern 1 matching the whole list. -/
def fullP1 (l : List Char) : Bool :=
  match stripGpuDot l with
  | some r =>
    decide (r.takeWhile isDigitC ≠ []) &&
    (match r.dropWhile isDigitC with
     | x :: rest => lowerC x = 'x' ∧ (rest ≠ [] ∧ rest.all isShapeClassC)
     | [] => false)
  | none => false

/-- Pattern 2 matching the whole list. -/
def fullP2 (l : List Char) : Bool :=
  match stripGpuDot l with
  | some r =>
    decide (r.takeWhile isShapeClassC ≠ []) &&
    (match r.dropWhile isShapeClassC with
     | '.' :: rest => decide (rest ≠ []) && rest.all isWordC
     | _ => false)
  | none => false

/-- Pattern 3 matching the whole list. -/
def fullP3 (l : List Char) : Bool :=
  match stripGpuDot l with
  | some r => decide (r ≠ []) && r.all isShapeClassC
  | none => false

/-- Pattern 4 matching the whole list. -/
def fullP4 (l : List Char) : Bool :=
  decide (l.takeWhile isDigitC ≠ []) &&
  (match l.dropWhile isDigitC with
   | x :: rest => lowerC x = 'x' ∧ (rest ≠ [] ∧ rest.all isShapeClassC)
   | [] => false)

/-- Pattern 5 matching the whole list: digits, then an optional `x`. -/
def fullP5 (l : List Char) : Bool :=
  decide (l.takeWhile isDigitC ≠ []) &&
  (match l.dropWhile isDigitC with
   | [] => true
   | [x] => lowerC x = 'x'
   | _ => false)

/-- Some pattern of `GPU_RESOURCE_PATTERNS` matches the whole list. -/
def fullMatchAny (l : List Char) : Bool :=
  fullP1 l || fullP2 l || fullP3 l || fullP4 l || fullP5 l

example : matchP1 "gpu.8xh200".data = true := by decide
example : matchP2 "gpu.a10.6xlarge".data = true := by decide
example : matchP1 "gpu.a10.6xlarge".data = false := by decide
example : matchP3 "gpu.a100-40gb".data = true := by decide
example : matchP4 "8xh200".data = true := by decide
example : matchP5 "8".data = true := by decide
example : validate_resource_shape (some "gpu.8xh200") = .ok (some "gpu.8xh200") := by decide
example : validate_resource_shape (some "??bad??") =
    .error (.formatError "??bad??"
      ["gpu.8xh200", "gpu.4xh100", "gpu.2xa100-40gb", "gpu.8xa100-80gb", "gpu.a10"]) := by
  decide
example : validate_resource_shape (some "8??bad??") = .ok (some "8??bad??") := by decide
example : fullMatchAny "8??bad??".data = false := by decide
example : fullMatchAny "8x".data = true := by decide

/-! ## Cross-field gate -/

/-- Raw value of one of the two linked options as the callback sees it:
`None`, the string of `--resource-shape`, or the float of `--memory-per-gpu`. -/
inductive RawValue where
  | rvNone
  | rvStr (s : String)
  | rvNum (q : ℚ)
deriving DecidableEq, Repr

/-- Python truthiness of the raw value (`None`, `''` and `0.0` are falsy). -/
def rawFalsy : RawValue → Bool
  | .rvNone => true
  | .rvStr s => s.data.isEmpty
  | .rvNum q => q == 0

/-- Ordered-dict insert (Python `d[k] = v`): overwrite in place or append. -/
def assocInsert {α : Type} (k : String) (v : α) : List (String × α) → List (String × α)
  | [] => [(k, v)]
  | (k', v') :: rest =>
    if k' = k then (k', v) :: rest else (k', v') :: assocInsert k v rest

/-- Dict lookup (Python `d.get(k)`). -/
def assocGet {α : Type} (k : String) : List (String × α) → Option α
  | [] => none
  | (k', v') :: rest => if k' = k then some v' else assocGet k rest

/-- The per-invocation accumulator `ctx._resource_validation_params`
(created empty on first use). -/
abbrev ValidationCtx := List (String × RawValue)

/-- `validate_resource_shape_or_memory` from `autotune.py`: register the raw
value under the option name, run the completeness check once two fields are
registered (`requirementError` when both are falsy), then apply the shape
format check to a truthy `resource_shape` value.  Returns the updated
accumulator together with the returned value. -/
def validate_resource_shape_or_memory (ctxParams : ValidationCtx) (paramName : String)
    (value : RawValue) : Except OptError (ValidationCtx × RawValue) :=
  let params := assocInsert paramName value ctxParams
  if params.length = 2 &&
     rawFalsy ((assocGet "resource_shape" params).getD .rvNone) &&
     rawFalsy ((assocGet "memory_per_gpu" params).getD .rvNone) then
    .error .requirementError
  else if paramName = "resource_shape" && !rawFalsy value then
    match value with
    | .rvStr v => (validate_resource_shape (some v)).map (fun _ => (params, value))
    | _ => .error .typeError
  else .ok (params, value)

/-- Run the two registrations of one invocation in the given order, as click
does when processing the two options; the second registration only happens
when the first callback did not raise. -/
def gateTwo (n1 : String) (v1 : RawValue) (n2 : String) (v2 : RawValue) :
    Except OptError (ValidationCtx × RawValue) := do
  let (c1, _) ← validate_resource_shape_or_memory [] n1 v1
  validate_resource_shape_or_memory c1 n2 v2

/-- Error verdict of a gate run (`none` means it passed). -/
def gateVerdict (r : Except OptError (ValidationCtx × RawValue)) : Option OptError :=
  match r with
  | .ok _ => none
  | .error e => some e

/-- Whether a gate run raised the completeness `requirementError`. -/
def isReqErr (r : Except OptError (ValidationCtx × RawValue)) : Bool :=
  match r with
  | .error .requirementError => true
  | _ => false

example : gateTwo "memory_per_gpu" (.rvNum 80) "resource_shape" .rvNone =
    .ok ([("memory_per_gpu", .rvNum 80), ("resource_shape", .rvNone)], .rvNone) := by decide
example :
    isReqErr (gateTwo "resource_shape" .rvNone "memory_per_gpu" .rvNone) = true := by decide
example :
    gateVerdict (gateTwo "resource_shape" (.rvStr "bad!!") "memory_per_gpu" .rvNone) =
    gateVerdict (gateTwo "memory_per_gpu" .rvNone "resource_shape" (.rvStr "bad!!")) := by decide

/-! ## Configuration record and command boundaries -/

/-- Modelled from the spec: the `AutoTuneArgs` class lives in the external
NeMo package; its fields here are the normalized options `generate` passes
into it (per section 3 and section 6 of the spec), plus the `sequential`
flag and the `metadata` dict patched by `run`. -/
structure AutoTuneArgs where
  config_dir : String
  model : String
  nodes : Int
  gpus_per_node : Int
  mount_path : String
  mount_from : String
  node_group : String
  logs_subdir : String
  micro_batch_sizes : ConvResult
  global_batch_sizes : ConvResult
  tensor_parallel_sizes : ConvResult
  virtual_pipeline_parallel_sizes : ConvResult
  pipeline_parallel_sizes : ConvResult
  context_parallel_sizes : ConvResult
  expert_parallel_sizes : ConvResult
  virtual_pipeline_model_parallel_sizes : ConvResult
  container_image : String
  nemo_run_dir : String
  hf_token : Option String
  wandb_api_key : Option String
  torch_home : String
  pythonpath : String
  resource_shape : Option String
  memory_per_gpu : Option ℚ
  max_model_parallel_size : Int
  min_model_parallel_size : Int
  max_steps_per_run : Int
  max_minutes_per_run : Int
  num_tokens_in_b : Int
  vocab_size : Int
  seq_length : Int
  val_check_interval : Int
  max_steps : Int
  sequential : Bool
  metadata : List (String × Bool)
deriving DecidableEq

/-- Exceptions that can cross the try block of a command: the load failure for a
missing or malformed persisted record, or any other exception (engine
failures, assembly failures), carrying its message. -/
inductive PyExc where
  | notFound (path : String)
  | exc (msg : String)
deriving DecidableEq, Repr

/-- Outcome of one command function: returned normally (process exit 0),
caught an exception and exited with code 1 after printing the context
message, or let an exception propagate uncaught out of the command. -/
inductive CmdOutcome where
  | finished
  | exit1 (context : String) (e : PyExc)
  | uncaughtExc (e : PyExc)
deriving DecidableEq, Repr

/-- The deterministic lookup path `f"{config_dir}/{model}/args.json"`. -/
def argsPath (config_dir model : String) : String :=
  config_dir ++ "/" ++ model ++ "/args.json"

/-- Modelled from the spec: `AutoTuneArgs.load_from_file` is external NeMo
code; per sections 4.5 and 7 it yields the persisted record at the path, and
absence or malformed content raises the not-found failure.  The `store`
argument abstracts the filesystem as parsed-record-at-path. -/
def load_from_file (store : String → Option AutoTuneArgs) (path : String) :
    Except PyExc AutoTuneArgs :=
  match store path with
  | some a => .ok a
  | none => .error (.notFound path)

/-- The patch `run` applies to a loaded record before calling the engine:
`args.sequential = sequential` and `args.metadata["run_all"] = run_all`. -/
def patchForRun (args : AutoTuneArgs) (sequential run_all : Bool) : AutoTuneArgs :=
  { args with
    sequential := sequential
    metadata := assocInsert "run_all" run_all args.metadata }

/-- The `generate` command body: `AutoTuneArgs(**kwargs)` is built BEFORE the
try block, so an assembly failure propagates uncaught; only the engine call
`autotuner_runner.generate(args)` is guarded. -/
def generate (assembled : Except PyExc AutoTuneArgs)
    (engineGenerate : AutoTuneArgs → Except PyExc Unit) : CmdOutcome :=
  match assembled with
  | .error e => .uncaughtExc e
  | .ok args =>
    match engineGenerate args with
    | .ok _ => .finished
    | .error e => .exit1 "Error generating configurations" e

/-- The `run` command body: inside the try block, load the record at
`argsPath`, patch the two flags, call the engine; any failure is caught and
exits with code 1. -/
def run (store : String → Option AutoTuneArgs) (config_dir model : String)
    (sequential run_all : Bool) (engineRun : AutoTuneArgs → Except PyExc Unit) : CmdOutcome :=
  match (do
      let args ← load_from_file store (argsPath config_dir model)
      engineRun (patchForRun args sequential run_all)) with
  | .ok _ => .finished
  | .error e => .exit1 "Error running AutoTune pretraining" e

/-- The `results` command body: inside the try block, load the record at
`argsPath` and ask the engine to analyze; any failure is caught and exits
with code 1. -/
def results (store : String → Option AutoTuneArgs) (config_dir model : String)
    (path logPre : String) (top_n : Int) (force_reconstruct : Bool)
    (cost_per_node_hour : ℚ) (quiet : Bool)
    (engineResults : AutoTuneArgs → String → String → Int → Bool → ℚ → Bool →
      Except PyExc Unit) : CmdOutcome :=
  match (do
      let args ← load_from_file store (argsPath config_dir model)
      engineResults args path logPre top_n force_reconstruct cost_per_node_hour quiet) with
  | .ok _ => .finished
  | .error e => .exit1 "Error during results analysis" e

/-- The `list_configs` command body: the pair is handed to the engine inside
the try block; any failure is caught and exits with code 1. -/
def list_configs (engineListConfigs : String → String → Except PyExc Unit)
    (config_dir model : String) : CmdOutcome :=
  match engineListConfigs config_dir model with
  | .ok _ => .finished
  | .error e => .exit1 "Error listing configs" e

/-- The `list_models` command body. -/
def list_models (engineListModels : Except PyExc Unit) : CmdOutcome :=
  match engineListModels with
  | .ok _ => .finished
  | .error e => .exit1 "Error listing models" e

/-- Modelled from the spec: `autotuner_runner.list_configs` is external NeMo
code; per section 4.5 it resolves the persisted record at
`<config_dir>/<model>/args.json` and fails with the not-found error when
absent or malformed. -/
def engineListConfigsModel (store : String → Option AutoTuneArgs)
    (config_dir model : String) : Except PyExc Unit :=
  match store (argsPath config_dir model) with
  | some _ => .ok ()
  | none => .error (.notFound (argsPath config_dir model))

/-! ## Helper lemmas about stripping and integer parsing -/

lemma dropWhile_ne_nil_exists {p : Char → Bool} :
    ∀ {l : List Char}, l.dropWhile p ≠ [] → ∃ c ∈ l.dropWhile p, p c = false := by
  intro l
  induction l with
  | nil => intro h; simp at h
  | cons c t ih =>
    intro h
    by_cases hc : p c
    · rw [List.dropWhile_cons_of_pos hc] at h ⊢; exact ih h
    · rw [List.dropWhile_cons_of_neg hc]
      exact ⟨c, List.mem_cons_self c t, Bool.not_eq_true _ ▸ by simpa using hc⟩

lemma dropWhile_eq_nil_all {p : Char → Bool} :
    ∀ {l : List Char}, l.dropWhile p = [] → ∀ c ∈ l, p c = true := by
  intro l
  induction l with
  | nil => intro _ c hc; simp at hc
  | cons a t ih =>
    intro h c hc
    by_cases ha : p a
    · rw [List.dropWhile_cons_of_pos ha] at h
      rcases List.mem_cons.mp hc with rfl | hct
      · exact ha
      · exact ih h c hct
    · rw [List.dropWhile_cons_of_neg ha] at h; simp at h

/-- A list with no strippable character at either end is left unchanged. -/
lemma pyStripL_of_no_space {l : List Char}
    (h : ∀ c ∈ l, isPySpaceC c = false) : pyStripL l = l := by
  unfold pyStripL
  have h1 : l.dropWhile isPySpaceC = l := by
    cases l with
    | nil => rfl
    | cons c t => exact List.dropWhile_cons_of_neg (by simp [h c (List.mem_cons_self c t)])
  rw [h1]
  have h2 : l.reverse.dropWhile isPySpaceC = l.reverse := by
    cases hr : l.reverse with
    | nil => rfl
    | cons c t =>
      have hc : c ∈ l := by
        rw [← List.mem_reverse, hr]; exact List.mem_cons_self c t
      exact List.dropWhile_cons_of_neg (by simp [h c hc])
  rw [h2, List.reverse_reverse]

/-- A nonempty strip output contains a non-space character. -/
lemma pyStripL_ne_nil_exists {l : List Char} (h : pyStripL l ≠ []) :
    ∃ c ∈ pyStripL l, isPySpaceC c = false := by
  unfold pyStripL at h ⊢
  have hB : (l.dropWhile isPySpaceC).reverse.dropWhile isPySpaceC ≠ [] := by
    intro hB; rw [hB] at h; simp at h
  obtain ⟨c, hc, hcp⟩ := dropWhile_ne_nil_exists hB
  exact ⟨c, by simpa using hc, hcp⟩

/-- An empty strip output means every character was strippable. -/
lemma pyStripL_eq_nil_all {l : List Char} (h : pyStripL l = []) :
    ∀ c ∈ l, isPySpaceC c = true := by
  unfold pyStripL at h
  rw [List.reverse_eq_nil_iff] at h
  have hA : ∀ c ∈ l.dropWhile isPySpaceC, isPySpaceC c = true := by
    intro c hc
    exact dropWhile_eq_nil_all h c (by simpa using hc)
  intro c hc
  rw [← List.takeWhile_append_dropWhile (p := isPySpaceC) (l := l)] at hc
  rcases List.mem_append.mp hc with hct | hcd
  · exact List.mem_takeWhile_imp hct
  · exact hA c hcd

/-- Stripping an already-stripped nonempty list cannot give the empty list. -/
lemma pyStripL_pyStripL_ne_nil {l : List Char} (h : pyStripL l ≠ []) :
    pyStripL (pyStripL l) ≠ [] := by
  intro hnil
  obtain ⟨c, hc, hcp⟩ := pyStripL_ne_nil_exists h
  have := pyStripL_eq_nil_all hnil c hc
  rw [this] at hcp; exact Bool.true_eq_false ▸ hcp ▸ rfl

lemma digit_not_space {c : Char} (h : isDigitC c = true) : isPySpaceC c = false := by
  have h' : 48 ≤ c.toNat ∧ c.toNat ≤ 57 := by simpa [isDigitC] using h
  by_contra hs
  rw [Bool.not_eq_false] at hs
  simp only [isPySpaceC, Bool.or_eq_true, beq_iff_eq] at hs
  rcases hs with ((((rfl | rfl) | rfl) | rfl) | rfl) | rfl <;> revert h' <;> decide

lemma digit_ne_underscore {c : Char} (h : isDigitC c = true) : c ≠ '_' := by
  rintro rfl; simp [isDigitC] at h

lemma digit_ne_plus {c : Char} (h : isDigitC c = true) : c ≠ '+' := by
  rintro rfl; simp [isDigitC] at h

lemma digit_ne_minus {c : Char} (h : isDigitC c = true) : c ≠ '-' := by
  rintro rfl; simp [isDigitC] at h

/-- `digitsCore` evaluates a plain digit run to its left fold. -/
lemma digitsCore_digits :
    ∀ (l : List Char) (acc : Nat), (∀ c ∈ l, isDigitC c = true) →
      digitsCore acc l = some (l.foldl (fun a c => a * 10 + digitVal c) acc) := by
  intro l
  induction l with
  | nil => intro acc _; rfl
  | cons c t ih =>
    intro acc h
    have hc : isDigitC c = true := h c (List.mem_cons_self c t)
    rw [digitsCore.eq_def]
    simp only [if_neg (digit_ne_underscore hc), if_pos hc, List.foldl_cons]
    exact ih _ (fun c' hc' => h c' (List.mem_cons_of_mem c hc'))

/-- Python `int()` accepts a string whose strip is a nonempty digit run and
returns its decimal value. -/
lemma pyIntParseL_digits {l : List Char} (h1 : pyStripL l ≠ [])
    (h2 : ∀ c ∈ pyStripL l, isDigitC c = true) :
    pyIntParseL l = some ((decValL (pyStripL l) : Nat) : Int) := by
  rcases hx : pyStripL l with _ | ⟨c, rest⟩
  · exact absurd hx h1
  · have hc : isDigitC c = true := by
      apply h2; rw [hx]; exact List.mem_cons_self c rest
    have hrest : ∀ c' ∈ rest, isDigitC c' = true := by
      intro c' hc'; apply h2; rw [hx]; exact List.mem_cons_of_mem c hc'
    have hu : pyIntParseL l =
        if c = '+' then (parseUDigits rest).map (fun n => (n : Int))
        else if c = '-' then (parseUDigits rest).map (fun n => -(n : Int))
        else (parseUDigits (c :: rest)).map (fun n => (n : Int)) := by
      rw [pyIntParseL, hx]
    have hp : parseUDigits (c :: rest) =
        if isDigitC c then digitsCore (digitVal c) rest else none := rfl
    rw [hu, if_neg (digit_ne_plus hc), if_neg (digit_ne_minus hc), hp, if_pos hc,
      digitsCore_digits rest (digitVal c) hrest]
    simp [decValL]

/-- Splitting a comma-free list is the singleton of the list. -/
lemma splitCommaAux_no_comma :
    ∀ (l : List Char) (acc : List Char), containsComma l = false →
      splitCommaAux acc l = [acc.reverse ++ l] := by
  intro l
  induction l with
  | nil => intro acc _; simp [splitCommaAux]
  | cons c t ih =>
    intro acc h
    simp only [containsComma, List.any_cons, Bool.or_eq_false_iff] at h
    rw [splitCommaAux, if_neg (by simpa using h.1)]
    rw [ih (c :: acc) h.2]
    simp

lemma splitComma_no_comma {l : List Char} (h : containsComma l = false) :
    splitComma l = [l] := by
  rw [splitComma, splitCommaAux_no_comma l [] h]; rfl

/-! ## Tokens of a comma-separated value, and decimal numerals -/

/-- The stripped nonempty pieces of the (outer-stripped) input, in order:
the tokens the conversion loop actually processes. -/
def nonEmptyTokens (s : String) : List (List Char) :=
  ((splitComma (pyStripL s.data)).map pyStripL).filter (fun t => !t.isEmpty)

/-- The token list is exactly the decimal numerals of the given numbers, in
order: each token is a nonempty digit string whose value is the number. -/
def tokensAreDecimals : List (List Char) → List Nat → Bool
  | [], [] => true
  | t :: ts, n :: ms =>
    !t.isEmpty && t.all isDigitC && (decValL t == n) && tokensAreDecimals ts ms
  | _, _ => false

/-- The conversion loop maps decimal tokens of positive numbers to exactly
those numbers, in order, skipping empty pieces. -/
lemma intListLoop_decimals (value : List Char) :
    ∀ (toks : List (List Char)) (ns : List Nat),
      tokensAreDecimals ((toks.map pyStripL).filter (fun t => !t.isEmpty)) ns = true →
      (∀ n ∈ ns, 0 < n) →
      intListLoop value toks = .ok (ns.map (fun n => (n : Int))) := by
  intro toks
  induction toks with
  | nil =>
    intro ns h _
    cases ns with
    | nil => rfl
    | cons n ms => simp [tokensAreDecimals] at h
  | cons t ts ih =>
    intro ns h hpos
    rw [intListLoop.eq_def]
    simp only
    rcases hx : pyStripL t with _ | ⟨c, rest⟩
    · rw [if_pos rfl]
      apply ih ns _ hpos
      simpa [hx] using h
    · rw [if_neg (by simp)]
      have hfil :
          ((t :: ts).map pyStripL).filter (fun t => !t.isEmpty) =
            (c :: rest) :: ((ts.map pyStripL).filter (fun t => !t.isEmpty)) := by
        simp [hx]
      rw [hfil] at h
      cases ns with
      | nil => simp [tokensAreDecimals] at h
      | cons n ms =>
        simp only [tokensAreDecimals, Bool.and_eq_true, beq_iff_eq] at h
        obtain ⟨⟨⟨-, hdig⟩, hval⟩, hrec⟩ := h
        have hstrip : pyStripL (c :: rest) = c :: rest :=
          pyStripL_of_no_space (fun c' hc' =>
            digit_not_space ((List.all_eq_true.mp hdig c' hc')))
        have hparse : pyIntParseL (c :: rest) = some ((decValL (pyStripL (c :: rest)) : Nat) : Int) :=
          pyIntParseL_digits (by rw [hstrip]; simp)
            (fun c' hc' => by
              rw [hstrip] at hc'; exact List.all_eq_true.mp hdig c' hc')
        rw [hstrip] at hparse
        rw [hparse, hval]
        dsimp only
        have hn : 0 < n := hpos n (List.mem_cons_self n ms)
        rw [if_neg (by exact_mod_cast Nat.not_le.mpr hn)]
        rw [ih ms hrec (fun m hm => hpos m (List.mem_cons_of_mem n hm))]
        rfl

/-! ## Helper lemmas about the gate -/

/-- First registration of `resource_shape` into an empty accumulator. -/
lemma vrsom_first_rs (vs : RawValue) :
    validate_resource_shape_or_memory [] "resource_shape" vs =
      if rawFalsy vs then .ok ([("resource_shape", vs)], vs)
      else
        match vs with
        | .rvStr v =>
          (validate_resource_shape (some v)).map (fun _ => ([("resource_shape", vs)], vs))
        | _ => .error .typeError := by
  cases vs <;> simp [validate_resource_shape_or_memory, assocInsert, rawFalsy]

/-- First registration of `memory_per_gpu` into an empty accumulator always
passes and just records the value. -/
lemma vrsom_first_mpg (vm : RawValue) :
    validate_resource_shape_or_memory [] "memory_per_gpu" vm =
      .ok ([("memory_per_gpu", vm)], vm) := by
  cases vm <;> simp [validate_resource_shape_or_memory, assocInsert, rawFalsy]

/-- Second registration, `memory_per_gpu` after `resource_shape`. -/
lemma vrsom_second_mpg (vs vm : RawValue) :
    validate_resource_shape_or_memory [("resource_shape", vs)] "memory_per_gpu" vm =
      if rawFalsy vs && rawFalsy vm then .error .requirementError
      else .ok ([("resource_shape", vs), ("memory_per_gpu", vm)], vm) := by
  simp [validate_resource_shape_or_memory, assocInsert, assocGet]

/-- Second registration, `resource_shape` after `memory_per_gpu`. -/
lemma vrsom_second_rs (vs vm : RawValue) :
    validate_resource_shape_or_memory [("memory_per_gpu", vm)] "resource_shape" vs =
      if rawFalsy vs && rawFalsy vm then .error .requirementError
      else if rawFalsy vs then .ok ([("memory_per_gpu", vm), ("resource_shape", vs)], vs)
      else
        match vs with
        | .rvStr v =>
          (validate_resource_shape (some v)).map
            (fun _ => ([("memory_per_gpu", vm), ("resource_shape", vs)], vs))
        | _ => .error .typeError := by
  cases hvs : rawFalsy vs <;>
    cases vs <;>
      simp_all [validate_resource_shape_or_memory, assocInsert, assocGet, rawFalsy]

/-- Evaluation of a full invocation registering shape first. -/
lemma gateTwo_rs_mpg (vs vm : RawValue) :
    gateTwo "resource_shape" vs "memory_per_gpu" vm =
      if rawFalsy vs && rawFalsy vm then .error .requirementError
      else if rawFalsy vs then
        .ok ([("resource_shape", vs), ("memory_per_gpu", vm)], vm)
      else
        match vs with
        | .rvStr v =>
          (validate_resource_shape (some v)).map
            (fun _ => ([("resource_shape", vs), ("memory_per_gpu", vm)], vm))
        | _ => .error .typeError := by
  rw [gateTwo, vrsom_first_rs]
  cases hvs : rawFalsy vs
  · cases vs with
    | rvStr v =>
      cases hm : GPU_RESOURCE_PATTERNS.any (fun p => p v.data) <;>
        simp [validate_resource_shape, hm, hvs, vrsom_second_mpg, Except.map,
          bind, Except.bind]
    | rvNone => simp [rawFalsy] at hvs
    | rvNum q => simp [bind, Except.bind]
  · simp [hvs, bind, Except.bind, vrsom_second_mpg]

/-- Evaluation of a full invocation registering the memory budget first. -/
lemma gateTwo_mpg_rs (vs vm : RawValue) :
    gateTwo "memory_per_gpu" vm "resource_shape" vs =
      if rawFalsy vs && rawFalsy vm then .error .requirementError
      else if rawFalsy vs then
        .ok ([("memory_per_gpu", vm), ("resource_shape", vs)], vs)
      else
        match vs with
        | .rvStr v =>
          (validate_resource_shape (some v)).map
            (fun _ => ([("memory_per_gpu", vm), ("resource_shape", vs)], vs))
        | _ => .error .typeError := by
  rw [gateTwo, vrsom_first_mpg]
  simp only [bind, Except.bind]
  exact vrsom_second_rs vs vm

/-- C1: the completeness check of the cross-field gate never fires on the
first registration; over a full two-registration invocation its verdict is
identical in either registration order; and it raises the requirement error
exactly when both registered values are falsy. -/
theorem c1_cross_field_gate (vs vm : RawValue) :
    isReqErr (validate_resource_shape_or_memory [] "resource_shape" vs) = false ∧
    isReqErr (validate_resource_shape_or_memory [] "memory_per_gpu" vm) = false ∧
    gateVerdict (gateTwo "resource_shape" vs "memory_per_gpu" vm) =
      gateVerdict (gateTwo "memory_per_gpu" vm "resource_shape" vs) ∧
    isReqErr (gateTwo "resource_shape" vs "memory_per_gpu" vm) =
      (rawFalsy vs && rawFalsy vm) := by
  refine ⟨?_, ?_, ?_, ?_⟩
  · rw [vrsom_first_rs]
    cases hvs : rawFalsy vs
    · cases vs with
      | rvStr v =>
        cases hm : GPU_RESOURCE_PATTERNS.any (fun p => p v.data) <;>
          simp [validate_resource_shape, hm, isReqErr, Except.map]
      | rvNone => simp [rawFalsy] at hvs
      | rvNum q => simp [isReqErr]
    · simp [isReqErr]
  · rw [vrsom_first_mpg]; simp [isReqErr]
  · rw [gateTwo_rs_mpg, gateTwo_mpg_rs]
    cases hvs : rawFalsy vs <;> cases hvm : rawFalsy vm <;>
      simp only [Bool.and_self, Bool.and_true, Bool.and_false, if_true, if_false,
        Bool.true_and, Bool.false_and, ite_true, ite_false, gateVerdict] <;>
      (try rfl) <;>
      cases vs <;>
        first
        | rfl
        | (rename_i v
           cases hm : GPU_RESOURCE_PATTERNS.any (fun p => p v.data) <;>
             simp [validate_resource_shape, hm, gateVerdict, Except.map])
  · rw [gateTwo_rs_mpg]
    cases hvs : rawFalsy vs <;> cases hvm : rawFalsy vm <;>
      simp only [Bool.and_self, Bool.and_true, Bool.and_false, Bool.true_and,
        Bool.false_and, ite_true, ite_false, isReqErr] <;>
      (try rfl) <;>
      cases vs <;>
        first
        | rfl
        | (rename_i v
           cases hm : GPU_RESOURCE_PATTERNS.any (fun p => p v.data) <;>
             simp [validate_resource_shape, hm, isReqErr, Except.map])

/-! ## C2: correctness of the list parser on lists of positive numerals -/

/-- C2: a string whose comma-split pieces, after stripping and skipping empty
pieces, are decimal numerals of positive integers parses to exactly those
integers, in order (covers also the single-numeral no-comma form and the
empty/whitespace-only form with no numerals at all). -/
theorem c2_int_list_parser_preserves_values (s : String) (ns : List Nat)
    (h : tokensAreDecimals (nonEmptyTokens s) ns = true)
    (hpos : ∀ n ∈ ns, 0 < n) :
    IntListType.convert (.vStr s) = .ok (.rList (ns.map (fun n => (n : Int)))) := by
  rw [IntListType.convert.eq_def]
  simp only
  unfold nonEmptyTokens at h
  rcases hv : pyStripL s.data with _ | ⟨c, rest⟩
  · rw [if_pos rfl]
    rw [hv] at h
    cases ns with
    | nil => rfl
    | cons n ms => simp [splitComma, splitCommaAux, tokensAreDecimals] at h
  · rw [if_neg (by simp)]
    rw [hv] at h
    by_cases hc : containsComma (c :: rest) = true
    · rw [if_pos hc, intListLoop_decimals _ (splitComma (c :: rest)) ns h hpos]
      rfl
    · rw [if_neg hc]
      rw [splitComma_no_comma (by simpa using hc)] at h
      have hne : pyStripL (c :: rest) ≠ [] := by
        have h2 := pyStripL_pyStripL_ne_nil (l := s.data) (by rw [hv]; simp)
        rwa [hv] at h2
      rcases hx : pyStripL (c :: rest) with _ | ⟨c', rest'⟩
      · exact absurd hx hne
      · simp only [List.map_cons, List.map_nil, hx] at h
        rw [List.filter_cons_of_pos (by simp), List.filter_nil] at h
        cases ns with
        | nil => simp [tokensAreDecimals] at h
        | cons n ms =>
          simp only [tokensAreDecimals, Bool.and_eq_true, beq_iff_eq] at h
          obtain ⟨⟨⟨-, hdig⟩, hval⟩, hrec⟩ := h
          cases ms with
          | cons m ms' => simp [tokensAreDecimals] at hrec
          | nil =>
            have hparse := pyIntParseL_digits (l := c :: rest) (by rw [hx]; simp)
              (fun c2 hc2 => by rw [hx] at hc2; exact List.all_eq_true.mp hdig c2 hc2)
            rw [hx, hval] at hparse
            rw [hparse]
            dsimp only
            have hn : 0 < n := hpos n (List.mem_cons_self n [])
            rw [if_neg (by exact_mod_cast Nat.not_le.mpr hn)]
            rfl

/-- C2 witness at the example of the spec: `"2,4,8"` parses to `[2, 4, 8]`. -/
theorem c2_witness :
    tokensAreDecimals (nonEmptyTokens "2,4,8") [2, 4, 8] = true ∧
    IntListType.convert (.vStr "2,4,8") = .ok (.rList [2, 4, 8]) :=
  ⟨by decide, c2_int_list_parser_preserves_values "2,4,8" [2, 4, 8] (by decide) (by decide)⟩

/-! ## C3: the error reported by the list parser -/

/-- The local verdict of the loop body on one comma-split piece: skipped when
it strips to nothing, the parse failure when it is not an integer, the range
failure when it is a non-positive integer, no offense otherwise. -/
def tokenOffense (value : List Char) (t : List Char) : Option ConvError :=
  if pyStripL t = [] then none
  else
    match pyIntParseL (pyStripL t) with
    | none => some (.parseList ⟨pyStripL t⟩ ⟨value⟩)
    | some n => if n ≤ 0 then some (.rangeList n) else none

/-- The loop fails with the offense of the first offending piece. -/
lemma intListLoop_first_offense (value : List Char) :
    ∀ (pre : List (List Char)) (t : List Char) (post : List (List Char)) (e : ConvError),
      (∀ u ∈ pre, tokenOffense value u = none) →
      tokenOffense value t = some e →
      intListLoop value (pre ++ t :: post) = .error e := by
  intro pre
  induction pre with
  | nil =>
    intro t post e _ ht
    rw [List.nil_append, intListLoop.eq_def]
    simp only
    unfold tokenOffense at ht
    rcases hx : pyStripL t with _ | ⟨c, rest⟩
    · rw [hx] at ht; simp at ht
    · rw [hx] at ht
      rcases hp : pyIntParseL (c :: rest) with _ | n
      · rw [hp] at ht
        rw [if_neg (List.cons_ne_nil c rest)] at ht
        dsimp only at ht
        rw [Option.some.injEq] at ht
        rw [if_neg (List.cons_ne_nil c rest)]
        dsimp only
        rw [ht]
      · rw [hp] at ht
        rw [if_neg (List.cons_ne_nil c rest)] at ht
        dsimp only at ht
        rw [if_neg (List.cons_ne_nil c rest)]
        dsimp only
        by_cases hn : n ≤ 0
        · rw [if_pos hn] at ht
          rw [Option.some.injEq] at ht
          rw [if_pos hn, ht]
        · rw [if_neg hn] at ht; simp at ht
  | cons u pre' ih =>
    intro t post e hpre ht
    rw [List.cons_append, intListLoop.eq_def]
    simp only
    have hu := hpre u (List.mem_cons_self u pre')
    unfold tokenOffense at hu
    rcases hx : pyStripL u with _ | ⟨c, rest⟩
    · rw [hx] at hu
      rw [if_pos rfl]
      exact ih t post e (fun w hw => hpre w (List.mem_cons_of_mem u hw)) ht
    · rw [hx] at hu
      rw [if_neg (List.cons_ne_nil c rest)] at hu
      rw [if_neg (List.cons_ne_nil c rest)]
      rcases hp : pyIntParseL (c :: rest) with _ | n
      · rw [hp] at hu; simp at hu
      · rw [hp] at hu
        try dsimp only at hu ⊢
        by_cases hn : n ≤ 0
        · rw [if_pos hn] at hu; simp at hu
        · rw [if_neg hn]
          rw [ih t post e (fun w hw => hpre w (List.mem_cons_of_mem u hw)) ht]
          rfl

/-- C3 counterexample: `"-1,a"` contains the non-integer token `a`, yet the
parser fails with the range error for `-1`, not the parse error, because the
first offending token wins. -/
theorem c3_counterexample :
    IntListType.convert (.vStr "-1,a") = .error (.rangeList (-1)) := by decide

/-- The verdict of the no-comma scalar branch on the stripped value: the
scalar parse failure when it is not an integer, the scalar range failure
when it is a non-positive integer, no offense otherwise. -/
def scalarOffense (v : List Char) : Option ConvError :=
  match pyIntParseL v with
  | none => some (.parseScalar ⟨v⟩)
  | some n => if n ≤ 0 then some (.rangeScalar n) else none

/-- C3 amended: the parser fails with the error determined by the FIRST
offending token.  On a comma-containing input that is the parse error
naming the token and the stripped input when the token is not an integer,
the range error when it is an integer that is not positive; on a nonempty
no-comma input the single stripped token fails the same way through the
scalar branch (its parse error names the value, which is the token). -/
theorem c3_amended_first_offense_error (s : String) (pre : List (List Char))
    (t : List Char) (post : List (List Char)) (e : ConvError) :
    (splitComma (pyStripL s.data) = pre ++ t :: post →
      containsComma (pyStripL s.data) = true →
      (∀ u ∈ pre, tokenOffense (pyStripL s.data) u = none) →
      tokenOffense (pyStripL s.data) t = some e →
      IntListType.convert (.vStr s) = .error e) ∧
    (pyStripL s.data ≠ [] →
      containsComma (pyStripL s.data) = false →
      scalarOffense (pyStripL s.data) = some e →
      IntListType.convert (.vStr s) = .error e) := by
  constructor
  · intro hsplit hcomma hpre ht
    rw [IntListType.convert.eq_def]
    simp only
    have hvne : ¬(pyStripL s.data = []) := by
      intro h0; rw [h0] at hcomma; simp [containsComma] at hcomma
    rw [if_neg hvne, if_pos hcomma, hsplit,
      intListLoop_first_offense _ pre t post e hpre ht]
    rfl
  · intro hvne hcomma hsc
    rw [IntListType.convert.eq_def]
    simp only
    rw [if_neg hvne, if_neg (by simp [hcomma])]
    unfold scalarOffense at hsc
    rcases hp : pyIntParseL (pyStripL s.data) with _ | n <;> rw [hp] at hsc
    · rw [Option.some.injEq] at hsc
      rw [hsc]
    · try dsimp only at hsc ⊢
      by_cases hn : n ≤ 0
      · rw [if_pos hn] at hsc ⊢
        rw [Option.some.injEq] at hsc
        rw [hsc]
      · rw [if_neg hn] at hsc; simp at hsc

/-- C3 witness at the examples of the spec and of the scalar branch:
`"2,-1"` fails with the range error through the list path, and the no-comma
inputs `"a"` and `"-1"` fail with the scalar parse and range errors. -/
theorem c3_witness :
    tokenOffense (pyStripL "2,-1".data) ['-', '1'] = some (.rangeList (-1)) ∧
    IntListType.convert (.vStr "2,-1") = .error (.rangeList (-1)) ∧
    scalarOffense (pyStripL "a".data) = some (.parseScalar "a") ∧
    IntListType.convert (.vStr "a") = .error (.parseScalar "a") ∧
    scalarOffense (pyStripL "-1".data) = some (.rangeScalar (-1)) ∧
    IntListType.convert (.vStr "-1") = .error (.rangeScalar (-1)) :=
  ⟨by decide,
   (c3_amended_first_offense_error "2,-1" [['2']] ['-', '1'] [] (.rangeList (-1))).1
     (by decide) (by decide) (by decide) (by decide),
   by decide,
   (c3_amended_first_offense_error "a" [] [] [] (.parseScalar "a")).2
     (by decide) (by decide) (by decide),
   by decide,
   (c3_amended_first_offense_error "-1" [] [] [] (.rangeScalar (-1))).2
     (by decide) (by decide) (by decide)⟩

/-! ## C4: the auto-or-list parser -/

/-- The local verdict of the auto loop body on one comma-split piece: like
`tokenOffense`, except a piece spelling `auto` case-insensitively is the
mixing offense, checked before integer parsing. -/
def autoTokenOffense (value : List Char) (t : List Char) : Option ConvError :=
  if pyStripL t = [] then none
  else if pyLowerL (pyStripL t) = "auto".data then some (.mixed ⟨value⟩)
  else
    match pyIntParseL (pyStripL t) with
    | none => some (.parseList ⟨pyStripL t⟩ ⟨value⟩)
    | some n => if n ≤ 0 then some (.rangeList n) else none

/-- The auto loop fails with the offense of the first offending piece. -/
lemma intListOrAutoLoop_first_offense (value : List Char) :
    ∀ (pre : List (List Char)) (t : List Char) (post : List (List Char)) (e : ConvError),
      (∀ u ∈ pre, autoTokenOffense value u = none) →
      autoTokenOffense value t = some e →
      intListOrAutoLoop value (pre ++ t :: post) = .error e := by
  intro pre
  induction pre with
  | nil =>
    intro t post e _ ht
    rw [List.nil_append, intListOrAutoLoop.eq_def]
    simp only
    unfold autoTokenOffense at ht
    rcases hx : pyStripL t with _ | ⟨c, rest⟩
    · rw [hx] at ht; simp at ht
    · rw [hx] at ht
      rw [if_neg (List.cons_ne_nil c rest)] at ht
      rw [if_neg (List.cons_ne_nil c rest)]
      by_cases ha : pyLowerL (c :: rest) = "auto".data
      · rw [if_pos ha] at ht
        rw [Option.some.injEq] at ht
        rw [if_pos ha, ht]
      · rw [if_neg ha] at ht
        rw [if_neg ha]
        rcases hp : pyIntParseL (c :: rest) with _ | n
        · rw [hp] at ht
          rw [Option.some.injEq] at ht
          rw [ht]
        · rw [hp] at ht
          try dsimp only at ht ⊢
          by_cases hn : n ≤ 0
          · rw [if_pos hn] at ht
            rw [Option.some.injEq] at ht
            rw [if_pos hn, ht]
          · rw [if_neg hn] at ht; simp at ht
  | cons u pre' ih =>
    intro t post e hpre ht
    rw [List.cons_append, intListOrAutoLoop.eq_def]
    simp only
    have hu := hpre u (List.mem_cons_self u pre')
    unfold autoTokenOffense at hu
    rcases hx : pyStripL u with _ | ⟨c, rest⟩
    · rw [hx] at hu
      rw [if_pos rfl]
      exact ih t post e (fun w hw => hpre w (List.mem_cons_of_mem u hw)) ht
    · rw [hx] at hu
      rw [if_neg (List.cons_ne_nil c rest)] at hu
      rw [if_neg (List.cons_ne_nil c rest)]
      by_cases ha : pyLowerL (c :: rest) = "auto".data
      · rw [if_pos ha] at hu; simp at hu
      · rw [if_neg ha] at hu
        rw [if_neg ha]
        rcases hp : pyIntParseL (c :: rest) with _ | n
        · rw [hp] at hu; simp at hu
        · rw [hp] at hu
          try dsimp only at hu ⊢
          by_cases hn : n ≤ 0
          · rw [if_pos hn] at hu; simp at hu
          · rw [if_neg hn]
            rw [ih t post e (fun w hw => hpre w (List.mem_cons_of_mem u hw)) ht]
            rfl

/-- C4 counterexample: `"0,auto"` mixes an `auto` token with another token,
yet the parser fails with the range error for `0`, not the mixing error,
because the earlier offending token wins. -/
theorem c4_counterexample :
    IntListOrAutoType.convert (.vStr "0,auto") = .error (.rangeList 0) := by decide

/-- C4 amended: a whole value spelling `auto` case-insensitively after
stripping yields the `Auto` sentinel; and a comma-containing input fails
with the offense of its FIRST offending piece, where a piece spelling
`auto` is the mixing offense naming the stripped input — so mixing fails
with the mixing error exactly when no earlier piece fails parsing or
positivity first. -/
theorem c4_amended_auto_or_list (s : String) (pre : List (List Char))
    (t : List Char) (post : List (List Char)) (e : ConvError) :
    (pyLowerL (pyStripL s.data) = "auto".data →
      IntListOrAutoType.convert (.vStr s) = .ok .rAuto) ∧
    (splitComma (pyStripL s.data) = pre ++ t :: post →
      containsComma (pyStripL s.data) = true →
      (∀ u ∈ pre, autoTokenOffense (pyStripL s.data) u = none) →
      autoTokenOffense (pyStripL s.data) t = some e →
      IntListOrAutoType.convert (.vStr s) = .error e) := by
  constructor
  · intro hlow
    rw [IntListOrAutoType.convert.eq_def]
    simp only
    have hvne : ¬(pyStripL s.data = []) := by
      intro h0; rw [h0] at hlow; simp [pyLowerL] at hlow
    rw [if_neg hvne, if_pos hlow]
  · intro hsplit hcomma hpre ht
    rw [IntListOrAutoType.convert.eq_def]
    simp only
    have hvne : ¬(pyStripL s.data = []) := by
      intro h0; rw [h0] at hcomma; simp [containsComma] at hcomma
    have hlow : ¬(pyLowerL (pyStripL s.data) = "auto".data) := by
      intro hl
      simp only [containsComma, List.any_eq_true, beq_iff_eq] at hcomma
      obtain ⟨c, hc, rfl⟩ := hcomma
      have hmem : lowerC ',' ∈ pyLowerL (pyStripL s.data) :=
        List.mem_map_of_mem lowerC hc
      rw [hl] at hmem
      exact absurd hmem (by decide)
    rw [if_neg hvne, if_neg hlow, if_pos hcomma, hsplit,
      intListOrAutoLoop_first_offense _ pre t post e hpre ht]
    rfl

/-- C4 witness: the whole-value sentinel at `" AUTO "` and the mixing
example `"auto,2"`. -/
theorem c4_witness :
    IntListOrAutoType.convert (.vStr " AUTO ") = .ok .rAuto ∧
    IntListOrAutoType.convert (.vStr "auto,2") = .error (.mixed "auto,2") :=
  ⟨(c4_amended_auto_or_list " AUTO " [] [] [] .badType).1 (by decide),
   (c4_amended_auto_or_list "auto,2" [] ['a', 'u', 't', 'o'] [['2']]
       (.mixed "auto,2")).2 (by decide) (by decide) (by decide) (by decide)⟩

/-! ## C6: the ParsedListValue invariant -/

/-- Whether the raw value is an already-structured list (Python
`isinstance(value, list)`). -/
def ConvValue.isStructuredList : ConvValue → Bool
  | .vList _ => true
  | _ => false

/-- The ParsedListValue invariant of the data model in the spec: the result is
the `Auto` sentinel, or unset, or a sequence whose numeric entries are all
strictly positive (`Auto` never mixes with numeric entries by the shape of
`ConvResult`). -/
def resultSatisfiesInv : ConvResult → Bool
  | .rNone => true
  | .rAuto => true
  | .rList l => l.all (fun n => decide (0 < n))

/-- The invariant on a conversion outcome; failures carry no result. -/
def resultOk : Except ConvError ConvResult → Bool
  | .error _ => true
  | .ok r => resultSatisfiesInv r

/-- Every list produced by the plain conversion loop is entrywise positive. -/
lemma intListLoop_pos (value : List Char) :
    ∀ (toks : List (List Char)) (l : List Int),
      intListLoop value toks = .ok l → ∀ n ∈ l, 0 < n := by
  intro toks
  induction toks with
  | nil =>
    intro l h n hn
    rw [intListLoop] at h
    simp only [Except.ok.injEq] at h
    rw [← h] at hn
    simp at hn
  | cons t ts ih =>
    intro l h n hn
    rw [intListLoop.eq_def] at h
    simp only at h
    rcases hx : pyStripL t with _ | ⟨c, rest⟩ <;> rw [hx] at h
    · rw [if_pos rfl] at h
      exact ih l h n hn
    · rw [if_neg (List.cons_ne_nil c rest)] at h
      rcases hp : pyIntParseL (c :: rest) with _ | m <;> rw [hp] at h
      · simp at h
      · try dsimp only at h
        by_cases hm : m ≤ 0
        · rw [if_pos hm] at h; simp at h
        · rw [if_neg hm] at h
          rcases hrec : intListLoop value ts with e | l' <;> rw [hrec] at h
          · simp [Except.map] at h
          · simp only [Except.map, Except.ok.injEq] at h
            rw [← h] at hn
            rcases List.mem_cons.mp hn with rfl | hn'
            · omega
            · exact ih l' hrec n hn'

/-- Every list produced by the auto conversion loop is entrywise positive. -/
lemma intListOrAutoLoop_pos (value : List Char) :
    ∀ (toks : List (List Char)) (l : List Int),
      intListOrAutoLoop value toks = .ok l → ∀ n ∈ l, 0 < n := by
  intro toks
  induction toks with
  | nil =>
    intro l h n hn
    rw [intListOrAutoLoop] at h
    simp only [Except.ok.injEq] at h
    rw [← h] at hn
    simp at hn
  | cons t ts ih =>
    intro l h n hn
    rw [intListOrAutoLoop.eq_def] at h
    simp only at h
    rcases hx : pyStripL t with _ | ⟨c, rest⟩ <;> rw [hx] at h
    · rw [if_pos rfl] at h
      exact ih l h n hn
    · rw [if_neg (List.cons_ne_nil c rest)] at h
      by_cases ha : pyLowerL (c :: rest) = "auto".data
      · rw [if_pos ha] at h; simp at h
      · rw [if_neg ha] at h
        rcases hp : pyIntParseL (c :: rest) with _ | m <;> rw [hp] at h
        · simp at h
        · try dsimp only at h
          by_cases hm : m ≤ 0
          · rw [if_pos hm] at h; simp at h
          · rw [if_neg hm] at h
            rcases hrec : intListOrAutoLoop value ts with e | l' <;> rw [hrec] at h
            · simp [Except.map] at h
            · simp only [Except.map, Except.ok.injEq] at h
              rw [← h] at hn
              rcases List.mem_cons.mp hn with rfl | hn'
              · omega
              · exact ih l' hrec n hn'

/-- C6 counterexample: an already-structured list input is returned
unchanged without validation, so a successful conversion can violate the
positivity half of the invariant. -/
theorem c6_counterexample :
    IntListType.convert (.vList [0]) = .ok (.rList [0]) ∧
    resultSatisfiesInv (.rList [0]) = false :=
  ⟨rfl, rfl⟩

/-- C6 amended: every successful result of either parameter type on an
absent, string, or bare-integer input satisfies the ParsedListValue
invariant; the already-structured list form is excluded because it is
passed through unvalidated. -/
theorem c6_amended_invariant (v : ConvValue) (h : v.isStructuredList = false) :
    resultOk (IntListType.convert v) = true ∧
    resultOk (IntListOrAutoType.convert v) = true := by
  cases v with
  | vList l => simp [ConvValue.isStructuredList] at h
  | vNone => exact ⟨rfl, rfl⟩
  | vInt n =>
    constructor <;>
    · show resultOk (if n ≤ 0 then .error (.rangeScalar n) else .ok (.rList [n])) = true
      by_cases hn : n ≤ 0
      · rw [if_pos hn]; rfl
      · rw [if_neg hn]
        show List.all [n] (fun n => decide (0 < n)) = true
        simp; omega
  | vStr s =>
    constructor
    · rw [IntListType.convert.eq_def]
      simp only
      rcases hv : pyStripL s.data with _ | ⟨c, rest⟩
      · rw [if_pos rfl]; rfl
      · rw [if_neg (List.cons_ne_nil c rest)]
        by_cases hc : containsComma (c :: rest) = true
        · rw [if_pos hc]
          rcases hl : intListLoop (c :: rest) (splitComma (c :: rest)) with e | l
          · rfl
          · show resultSatisfiesInv (.rList l) = true
            simp only [resultSatisfiesInv, List.all_eq_true, decide_eq_true_eq]
            exact intListLoop_pos (c :: rest) (splitComma (c :: rest)) l hl
        · rw [if_neg hc]
          rcases hp : pyIntParseL (c :: rest) with _ | n
          · rfl
          · try dsimp only
            by_cases hn : n ≤ 0
            · rw [if_pos hn]; rfl
            · rw [if_neg hn]
              show List.all [n] (fun n => decide (0 < n)) = true
              simp; omega
    · rw [IntListOrAutoType.convert.eq_def]
      simp only
      rcases hv : pyStripL s.data with _ | ⟨c, rest⟩
      · rw [if_pos rfl]; rfl
      · rw [if_neg (List.cons_ne_nil c rest)]
        by_cases ha : pyLowerL (c :: rest) = "auto".data
        · rw [if_pos ha]; rfl
        · rw [if_neg ha]
          by_cases hc : containsComma (c :: rest) = true
          · rw [if_pos hc]
            rcases hl : intListOrAutoLoop (c :: rest) (splitComma (c :: rest)) with e | l
            · rfl
            · show resultSatisfiesInv (.rList l) = true
              simp only [resultSatisfiesInv, List.all_eq_true, decide_eq_true_eq]
              exact intListOrAutoLoop_pos (c :: rest) (splitComma (c :: rest)) l hl
          · rw [if_neg hc]
            rcases hp : pyIntParseL (c :: rest) with _ | n
            · rfl
            · try dsimp only
              by_cases hn : n ≤ 0
              · rw [if_pos hn]; rfl
              · rw [if_neg hn]
                show List.all [n] (fun n => decide (0 < n)) = true
                simp; omega

/-- C6 witness at a string input. -/
theorem c6_witness :
    ConvValue.isStructuredList (.vStr "2,4,8") = false ∧
    (resultOk (IntListType.convert (.vStr "2,4,8")) = true ∧
     resultOk (IntListOrAutoType.convert (.vStr "2,4,8")) = true) :=
  ⟨by decide, c6_amended_invariant (.vStr "2,4,8") (by decide)⟩

/-! ## C5: the resource-shape matcher contract -/

/-- C5: through the `resource_shape` callback path, an absent or empty value
is accepted unchanged (deferring to the completeness gate); a nonempty value
matching none of the five patterns fails with the format error whose message
lists exactly the five canonical example shapes; and a matching value is
accepted and returned unchanged. -/
theorem c5_resource_shape_matcher (s : String) :
    validate_resource_shape_or_memory [] "resource_shape" .rvNone =
      .ok ([("resource_shape", .rvNone)], .rvNone) ∧
    validate_resource_shape_or_memory [] "resource_shape" (.rvStr "") =
      .ok ([("resource_shape", .rvStr "")], .rvStr "") ∧
    (s ≠ "" → GPU_RESOURCE_PATTERNS.any (fun p => p s.data) = false →
      validate_resource_shape_or_memory [] "resource_shape" (.rvStr s) =
        .error (.formatError s
          ["gpu.8xh200", "gpu.4xh100", "gpu.2xa100-40gb", "gpu.8xa100-80gb", "gpu.a10"])) ∧
    (GPU_RESOURCE_PATTERNS.any (fun p => p s.data) = true →
      validate_resource_shape_or_memory [] "resource_shape" (.rvStr s) =
        .ok ([("resource_shape", .rvStr s)], .rvStr s)) := by
  refine ⟨rfl, rfl, ?_, ?_⟩
  · intro hs hm
    have hdata : ¬(s.data.isEmpty = true) := by
      intro h0
      apply hs
      cases s with
      | mk l => cases l with
        | nil => rfl
        | cons c t => simp [List.isEmpty] at h0
    rw [vrsom_first_rs]
    rw [if_neg (by simpa [rawFalsy] using hdata)]
    simp only [validate_resource_shape, hm]
    rfl
  · intro hm
    have hdata : ¬(s.data.isEmpty = true) := by
      intro h0
      have hnil : s.data = [] := by
        cases s with
        | mk l => cases l with
          | nil => rfl
          | cons c t => simp [List.isEmpty] at h0
      rw [hnil] at hm
      revert hm
      decide
    rw [vrsom_first_rs]
    rw [if_neg (by simpa [rawFalsy] using hdata)]
    simp only [validate_resource_shape, hm]
    rfl

/-- C5 witness at the examples of the spec: `"gpu.8xh200"` is accepted unchanged
and `"??bad??"` fails with the format error listing the five examples. -/
theorem c5_witness :
    validate_resource_shape_or_memory [] "resource_shape" (.rvStr "gpu.8xh200") =
      .ok ([("resource_shape", .rvStr "gpu.8xh200")], .rvStr "gpu.8xh200") ∧
    validate_resource_shape_or_memory [] "resource_shape" (.rvStr "??bad??") =
      .error (.formatError "??bad??"
        ["gpu.8xh200", "gpu.4xh100", "gpu.2xa100-40gb", "gpu.8xa100-80gb", "gpu.a10"]) :=
  ⟨(c5_resource_shape_matcher "gpu.8xh200").2.2.2 (by decide),
   (c5_resource_shape_matcher "??bad??").2.2.1 (by decide) (by decide)⟩

/-! ## C10: prefix matching accepts any extension of a fully-matched prefix -/

lemma stripGpuDot_append {l r suf : List Char} (h : stripGpuDot l = some r) :
    stripGpuDot (l ++ suf) = some (r ++ suf) := by
  match l with
  | [] => simp [stripGpuDot] at h
  | [c1] => simp [stripGpuDot] at h
  | [c1, c2] => simp [stripGpuDot] at h
  | [c1, c2, c3] => simp [stripGpuDot] at h
  | c1 :: c2 :: c3 :: c4 :: rest =>
    rw [stripGpuDot] at h
    by_cases hcond : lowerC c1 = 'g' ∧ lowerC c2 = 'p' ∧ lowerC c3 = 'u' ∧ c4 = '.'
    · rw [if_pos hcond, Option.some.injEq] at h
      show stripGpuDot (c1 :: c2 :: c3 :: c4 :: (rest ++ suf)) = some (r ++ suf)
      rw [stripGpuDot, if_pos hcond, ← h]
    · rw [if_neg hcond] at h; simp at h

/-- Splitting around the first run: a run of `p`-characters followed by a
`p`-failing character fixes `takeWhile` and `dropWhile` of any extension. -/
lemma takeWhile_append_run {p : Char → Bool} :
    ∀ (A : List Char) (c : Char) (D suf : List Char),
      (∀ a ∈ A, p a = true) → p c = false →
      (A ++ c :: (D ++ suf)).takeWhile p = A ∧
      (A ++ c :: (D ++ suf)).dropWhile p = c :: (D ++ suf) := by
  intro A
  induction A with
  | nil =>
    intro c D suf _ hc
    constructor
    · rw [List.nil_append, List.takeWhile_cons_of_neg (by simp [hc])]
    · rw [List.nil_append, List.dropWhile_cons_of_neg (by simp [hc])]
  | cons a A' ih =>
    intro c D suf hA hc
    have ha : p a = true := hA a (List.mem_cons_self a A')
    obtain ⟨ht, hd⟩ := ih c D suf (fun b hb => hA b (List.mem_cons_of_mem a hb)) hc
    constructor
    · rw [List.cons_append, List.takeWhile_cons_of_pos (by simp [ha]), ht]
    · rw [List.cons_append, List.dropWhile_cons_of_pos (by simp [ha]), hd]

lemma lowerC_x_not_digit {x : Char} (h : lowerC x = 'x') : isDigitC x = false := by
  by_contra hd
  rw [Bool.not_eq_false] at hd
  have hle : 48 ≤ x.toNat ∧ x.toNat ≤ 57 := by simpa [isDigitC] using hd
  have hlow : lowerC x = x := by
    rw [lowerC, if_neg]
    simp only [Bool.and_eq_true, decide_eq_true_eq]
    omega
  rw [hlow] at h
  subst h
  revert hle
  decide

lemma fullP1_matchP1 {pre suf : List Char} (h : fullP1 pre = true) :
    matchP1 (pre ++ suf) = true := by
  rw [fullP1] at h
  rcases hg : stripGpuDot pre with _ | r <;> rw [hg] at h
  · simp at h
  · rw [Bool.and_eq_true] at h
    obtain ⟨hA, hD⟩ := h
    rw [decide_eq_true_eq] at hA
    split at hD
    next x rest heq =>
      simp only [decide_eq_true_eq] at hD
      obtain ⟨hx, hrest, hall⟩ := hD
      have hr : r = r.takeWhile isDigitC ++ x :: rest := by
        rw [← heq, List.takeWhile_append_dropWhile]
      have hm : matchP1 (pre ++ suf) =
          (decide ((r ++ suf).takeWhile isDigitC ≠ []) &&
            matchXClass ((r ++ suf).dropWhile isDigitC)) := by
        rw [matchP1, stripGpuDot_append hg]
      have hxd : isDigitC x = false := lowerC_x_not_digit hx
      have hsplit := takeWhile_append_run (r.takeWhile isDigitC) x rest suf
        (fun a ha => List.mem_takeWhile_imp ha) hxd
      have hru : r ++ suf = r.takeWhile isDigitC ++ x :: (rest ++ suf) := by
        conv_lhs => rw [hr]
        simp
      rw [hm, hru, hsplit.1, hsplit.2]
      rcases rest with _ | ⟨rc, rest2⟩
      · exact absurd rfl hrest
      · have hrc : isShapeClassC rc = true :=
          List.all_eq_true.mp hall rc (List.mem_cons_self rc rest2)
        simp [matchXClass, hA, hx, hrc]
    next => simp at hD

lemma fullP2_matchP2 {pre suf : List Char} (h : fullP2 pre = true) :
    matchP2 (pre ++ suf) = true := by
  rw [fullP2] at h
  rcases hg : stripGpuDot pre with _ | r <;> rw [hg] at h
  · simp at h
  · rw [Bool.and_eq_true] at h
    obtain ⟨hA, hD⟩ := h
    rw [decide_eq_true_eq] at hA
    split at hD
    next rest heq =>
      rw [Bool.and_eq_true, decide_eq_true_eq] at hD
      obtain ⟨hrest, hall⟩ := hD
      have hr : r = r.takeWhile isShapeClassC ++ '.' :: rest := by
        rw [← heq, List.takeWhile_append_dropWhile]
      have hm : matchP2 (pre ++ suf) =
          (decide ((r ++ suf).takeWhile isShapeClassC ≠ []) &&
            (match (r ++ suf).dropWhile isShapeClassC with
             | '.' :: w :: _ => isWordC w
             | _ => false)) := by
        rw [matchP2, stripGpuDot_append hg]
      have hsplit := takeWhile_append_run (r.takeWhile isShapeClassC) '.' rest suf
        (fun a ha => List.mem_takeWhile_imp ha) (by decide)
      have hru : r ++ suf = r.takeWhile isShapeClassC ++ '.' :: (rest ++ suf) := by
        conv_lhs => rw [hr]
        simp
      rw [hm, hru, hsplit.1, hsplit.2]
      rcases rest with _ | ⟨w, rest2⟩
      · exact absurd rfl hrest
      · have hw : isWordC w = true :=
          List.all_eq_true.mp hall w (List.mem_cons_self w rest2)
        simp [hA, hw]
    next => simp at hD

lemma fullP3_matchP3 {pre suf : List Char} (h : fullP3 pre = true) :
    matchP3 (pre ++ suf) = true := by
  rw [fullP3] at h
  rcases hg : stripGpuDot pre with _ | r <;> rw [hg] at h
  · simp at h
  · rw [Bool.and_eq_true, decide_eq_true_eq] at h
    obtain ⟨hne, hall⟩ := h
    rcases r with _ | ⟨c, rest⟩
    · exact absurd rfl hne
    · have hc : isShapeClassC c = true :=
        List.all_eq_true.mp hall c (List.mem_cons_self c rest)
      have hm : matchP3 (pre ++ suf) = isShapeClassC c := by
        rw [matchP3, stripGpuDot_append hg]
        rfl
      rw [hm, hc]

lemma fullP4_matchP4 {pre suf : List Char} (h : fullP4 pre = true) :
    matchP4 (pre ++ suf) = true := by
  rw [fullP4] at h
  rw [Bool.and_eq_true] at h
  obtain ⟨hA, hD⟩ := h
  rw [decide_eq_true_eq] at hA
  split at hD
  next x rest heq =>
    simp only [decide_eq_true_eq] at hD
    obtain ⟨hx, hrest, hall⟩ := hD
    have hr : pre = pre.takeWhile isDigitC ++ x :: rest := by
      rw [← heq, List.takeWhile_append_dropWhile]
    have hxd : isDigitC x = false := lowerC_x_not_digit hx
    have hsplit := takeWhile_append_run (pre.takeWhile isDigitC) x rest suf
      (fun a ha => List.mem_takeWhile_imp ha) hxd
    have hru : pre ++ suf = pre.takeWhile isDigitC ++ x :: (rest ++ suf) := by
      conv_lhs => rw [hr]
      simp
    rw [matchP4, hru, hsplit.1, hsplit.2]
    rcases rest with _ | ⟨rc, rest2⟩
    · exact absurd rfl hrest
    · have hrc : isShapeClassC rc = true :=
        List.all_eq_true.mp hall rc (List.mem_cons_self rc rest2)
      simp [matchXClass, hA, hx, hrc]
  next => simp at hD

lemma fullP5_matchP5 {pre suf : List Char} (h : fullP5 pre = true) :
    matchP5 (pre ++ suf) = true := by
  rw [fullP5] at h
  rw [Bool.and_eq_true, decide_eq_true_eq] at h
  obtain ⟨hA, -⟩ := h
  rcases pre with _ | ⟨c, rest⟩
  · simp at hA
  · rw [List.takeWhile_cons] at hA
    by_cases hc : isDigitC c = true
    · rw [List.cons_append, matchP5]
      exact hc
    · rw [if_neg (by simpa using hc)] at hA
      exact absurd rfl hA

/-- C10: the matcher anchors at the start only, so any string some prefix of
which fully matches one of the five patterns is accepted and returned
unchanged; in particular any string beginning with a decimal digit is
accepted regardless of what follows. -/
theorem c10_prefix_match_accepts (s : String) (pre suf : List Char) :
    (s.data = pre ++ suf → fullMatchAny pre = true →
      validate_resource_shape (some s) = .ok (some s)) ∧
    (isDigitC (s.data.headD '?') = true →
      validate_resource_shape (some s) = .ok (some s)) := by
  constructor
  · intro hs hm
    rw [validate_resource_shape]
    rw [if_pos]
    simp only [GPU_RESOURCE_PATTERNS, List.any_cons, List.any_nil, Bool.or_eq_true,
      Bool.or_false]
    rw [fullMatchAny] at hm
    simp only [Bool.or_eq_true] at hm
    rw [hs]
    rcases hm with ((((h1 | h2) | h3) | h4) | h5)
    · exact Or.inl (fullP1_matchP1 h1)
    · exact Or.inr (Or.inl (fullP2_matchP2 h2))
    · exact Or.inr (Or.inr (Or.inl (fullP3_matchP3 h3)))
    · exact Or.inr (Or.inr (Or.inr (Or.inl (fullP4_matchP4 h4))))
    · exact Or.inr (Or.inr (Or.inr (Or.inr (fullP5_matchP5 h5))))
  · intro hd
    rw [validate_resource_shape]
    rw [if_pos]
    simp only [GPU_RESOURCE_PATTERNS, List.any_cons, List.any_nil, Bool.or_eq_true,
      Bool.or_false]
    rcases hs : s.data with _ | ⟨c, rest⟩
    · rw [hs] at hd; exact absurd hd (by decide)
    · rw [hs] at hd
      simp only [List.headD_cons] at hd
      exact Or.inr (Or.inr (Or.inr (Or.inr (by rw [matchP5]; exact hd))))

/-- C10 witness: `"8??bad??"` matches no pattern in full, yet its one-digit
prefix fully matches pattern 5, and validation accepts it unchanged. -/
theorem c10_witness :
    fullMatchAny "8??bad??".data = false ∧
    fullMatchAny ['8'] = true ∧
    validate_resource_shape (some "8??bad??") = .ok (some "8??bad??") :=
  ⟨by decide, by decide,
   (c10_prefix_match_accepts "8??bad??" ['8'] "??bad??".data).1 (by decide) (by decide)⟩

/-! ## C7, C8, C9: command boundaries, lookup path, and the run patch -/

lemma assocGet_assocInsert {α : Type} (k k' : String) (v : α) :
    ∀ d : List (String × α),
      assocGet k (assocInsert k' v d) = if k' = k then some v else assocGet k d := by
  intro d
  induction d with
  | nil => simp [assocInsert, assocGet]
  | cons hd rest ih =>
    obtain ⟨k2, v2⟩ := hd
    by_cases h2 : k2 = k'
    · subst h2
      by_cases hk : k2 = k
      · subst hk
        simp [assocInsert, assocGet]
      · simp [assocInsert, assocGet, hk]
    · by_cases hk : k2 = k
      · subst hk
        have hne : ¬k' = k2 := fun h => h2 h.symm
        simp [assocInsert, assocGet, h2, hne]
      · simp [assocInsert, assocGet, h2, hk, ih]

/-- A fully-populated configuration record used as a concrete witness. -/
def sampleArgs : AutoTuneArgs where
  config_dir := "d"
  model := "m"
  nodes := 2
  gpus_per_node := 8
  mount_path := "/mnt"
  mount_from := "vol"
  node_group := "g"
  logs_subdir := "logs"
  micro_batch_sizes := .rList [1, 2, 4]
  global_batch_sizes := .rList [512]
  tensor_parallel_sizes := .rList [1, 2, 4]
  virtual_pipeline_parallel_sizes := .rNone
  pipeline_parallel_sizes := .rAuto
  context_parallel_sizes := .rList [1, 2]
  expert_parallel_sizes := .rList [1]
  virtual_pipeline_model_parallel_sizes := .rNone
  container_image := "nvcr.io/nvidia/nemo:25.04"
  nemo_run_dir := "/nemo-workspace/nemo-run"
  hf_token := none
  wandb_api_key := none
  torch_home := "/nemo-workspace/.cache"
  pythonpath := "/nemo-workspace/nemo-run:$PYTHONPATH"
  resource_shape := some "gpu.8xh200"
  memory_per_gpu := none
  max_model_parallel_size := 32
  min_model_parallel_size := 1
  max_steps_per_run := 10
  max_minutes_per_run := 10
  num_tokens_in_b := 15000
  vocab_size := 32000
  seq_length := 8192
  val_check_interval := 50
  max_steps := 10
  sequential := false
  metadata := []

/-- C7 counterexample: in `generate` the record is assembled BEFORE the try
block, so an assembly failure propagates uncaught out of the command instead
of being caught with the descriptive message and exit code 1. -/
theorem c7_counterexample :
    generate (.error (.exc "assembly failed")) (fun _ => .ok ()) =
      .uncaughtExc (.exc "assembly failed") := rfl

/-- C7 amended: every exception raised INSIDE the try block of a command — the
persisted-record load and each engine call — is caught at the affected
boundary and turned into the printed message plus exit code 1, across all
five commands; only `generate`'s pre-try assembly escapes this. -/
theorem c7_amended_boundary (e : PyExc) (args : AutoTuneArgs)
    (dir model p lp : String) (seq ra fr q : Bool) (tn : Int) (cost : ℚ) :
    generate (.ok args) (fun _ => .error e) =
      .exit1 "Error generating configurations" e ∧
    run (fun _ => some args) dir model seq ra (fun _ => .error e) =
      .exit1 "Error running AutoTune pretraining" e ∧
    run (fun _ => none) dir model seq ra (fun _ => .error e) =
      .exit1 "Error running AutoTune pretraining" (.notFound (argsPath dir model)) ∧
    results (fun _ => some args) dir model p lp tn fr cost q
        (fun _ _ _ _ _ _ _ => .error e) =
      .exit1 "Error during results analysis" e ∧
    list_configs (fun _ _ => .error e) dir model =
      .exit1 "Error listing configs" e ∧
    list_models (.error e) = .exit1 "Error listing models" e := by
  refine ⟨rfl, ?_, ?_, ?_, rfl, rfl⟩ <;>
    simp [run, results, load_from_file, bind, Except.bind]

/-- C8: run, results and list-configs resolve the persisted record at the
deterministic path `<config_dir>/<model>/args.json`: with nothing stored
there all three fail caught with the not-found error and exit code 1, and
with a record stored there all three proceed. -/
theorem c8_lookup_path (store : String → Option AutoTuneArgs)
    (dir model p lp : String) (seq ra fr q : Bool) (tn : Int) (cost : ℚ)
    (args : AutoTuneArgs) (eng : AutoTuneArgs → Except PyExc Unit)
    (engR : AutoTuneArgs → String → String → Int → Bool → ℚ → Bool →
      Except PyExc Unit) :
    (store (argsPath dir model) = none →
      run store dir model seq ra eng =
        .exit1 "Error running AutoTune pretraining" (.notFound (argsPath dir model)) ∧
      results store dir model p lp tn fr cost q engR =
        .exit1 "Error during results analysis" (.notFound (argsPath dir model)) ∧
      list_configs (engineListConfigsModel store) dir model =
        .exit1 "Error listing configs" (.notFound (argsPath dir model))) ∧
    (store (argsPath dir model) = some args →
      run store dir model seq ra (fun _ => .ok ()) = .finished ∧
      results store dir model p lp tn fr cost q (fun _ _ _ _ _ _ _ => .ok ()) =
        .finished ∧
      list_configs (engineListConfigsModel store) dir model = .finished) := by
  constructor <;> intro h <;>
    refine ⟨?_, ?_, ?_⟩ <;>
      simp [run, results, list_configs, load_from_file, engineListConfigsModel, h,
        bind, Except.bind]

/-- C8 witness: an empty store fails all three with the not-found error at
`d/m/args.json`; a store holding a record exactly there succeeds. -/
theorem c8_witness :
    run (fun _ => none) "d" "m" false false (fun _ => .ok ()) =
      .exit1 "Error running AutoTune pretraining" (.notFound "d/m/args.json") ∧
    run (fun pa => if pa = "d/m/args.json" then some sampleArgs else none)
        "d" "m" false false (fun _ => .ok ()) = .finished ∧
    list_configs
        (engineListConfigsModel
          (fun pa => if pa = "d/m/args.json" then some sampleArgs else none))
        "d" "m" = .finished :=
  ⟨((c8_lookup_path (fun _ => none) "d" "m" "" "" false false false false 10 24
      sampleArgs (fun _ => .ok ()) (fun _ _ _ _ _ _ _ => .ok ())).1 rfl).1,
   ((c8_lookup_path (fun pa => if pa = "d/m/args.json" then some sampleArgs else none)
      "d" "m" "" "" false false false false 10 24 sampleArgs (fun _ => .ok ())
      (fun _ _ _ _ _ _ _ => .ok ())).2 (by simp [argsPath])).1,
   ((c8_lookup_path (fun pa => if pa = "d/m/args.json" then some sampleArgs else none)
      "d" "m" "" "" false false false false 10 24 sampleArgs (fun _ => .ok ())
      (fun _ _ _ _ _ _ _ => .ok ())).2 (by simp [argsPath])).2.2⟩

/-- C9: the patch `run` applies to a loaded record changes exactly the
`sequential` flag and the `run_all` metadata key: every other field, and
every other metadata key, is unchanged, and the engine receives exactly the
patched record. -/
theorem c9_run_patch_frame (args : AutoTuneArgs) (seq ra : Bool) (k : String)
    (store : String → Option AutoTuneArgs) (dir model : String)
    (hk : k ≠ "run_all")
    (hstore : store (argsPath dir model) = some args) :
    (patchForRun args seq ra).config_dir = args.config_dir ∧
    (patchForRun args seq ra).model = args.model ∧
    (patchForRun args seq ra).nodes = args.nodes ∧
    (patchForRun args seq ra).gpus_per_node = args.gpus_per_node ∧
    (patchForRun args seq ra).mount_path = args.mount_path ∧
    (patchForRun args seq ra).mount_from = args.mount_from ∧
    (patchForRun args seq ra).node_group = args.node_group ∧
    (patchForRun args seq ra).logs_subdir = args.logs_subdir ∧
    (patchForRun args seq ra).micro_batch_sizes = args.micro_batch_sizes ∧
    (patchForRun args seq ra).global_batch_sizes = args.global_batch_sizes ∧
    (patchForRun args seq ra).tensor_parallel_sizes = args.tensor_parallel_sizes ∧
    (patchForRun args seq ra).virtual_pipeline_parallel_sizes =
      args.virtual_pipeline_parallel_sizes ∧
    (patchForRun args seq ra).pipeline_parallel_sizes = args.pipeline_parallel_sizes ∧
    (patchForRun args seq ra).context_parallel_sizes = args.context_parallel_sizes ∧
    (patchForRun args seq ra).expert_parallel_sizes = args.expert_parallel_sizes ∧
    (patchForRun args seq ra).virtual_pipeline_model_parallel_sizes =
      args.virtual_pipeline_model_parallel_sizes ∧
    (patchForRun args seq ra).container_image = args.container_image ∧
    (patchForRun args seq ra).nemo_run_dir = args.nemo_run_dir ∧
    (patchForRun args seq ra).hf_token = args.hf_token ∧
    (patchForRun args seq ra).wandb_api_key = args.wandb_api_key ∧
    (patchForRun args seq ra).torch_home = args.torch_home ∧
    (patchForRun args seq ra).pythonpath = args.pythonpath ∧
    (patchForRun args seq ra).resource_shape = args.resource_shape ∧
    (patchForRun args seq ra).memory_per_gpu = args.memory_per_gpu ∧
    (patchForRun args seq ra).max_model_parallel_size = args.max_model_parallel_size ∧
    (patchForRun args seq ra).min_model_parallel_size = args.min_model_parallel_size ∧
    (patchForRun args seq ra).max_steps_per_run = args.max_steps_per_run ∧
    (patchForRun args seq ra).max_minutes_per_run = args.max_minutes_per_run ∧
    (patchForRun args seq ra).num_tokens_in_b = args.num_tokens_in_b ∧
    (patchForRun args seq ra).vocab_size = args.vocab_size ∧
    (patchForRun args seq ra).seq_length = args.seq_length ∧
    (patchForRun args seq ra).val_check_interval = args.val_check_interval ∧
    (patchForRun args seq ra).max_steps = args.max_steps ∧
    (patchForRun args seq ra).sequential = seq ∧
    assocGet "run_all" (patchForRun args seq ra).metadata = some ra ∧
    assocGet k (patchForRun args seq ra).metadata = assocGet k args.metadata ∧
    run store dir model seq ra
        (fun a => if a = patchForRun args seq ra then .ok () else .error (.exc "other")) =
      .finished := by
  refine ⟨rfl, rfl, rfl, rfl, rfl, rfl, rfl, rfl, rfl, rfl, rfl, rfl, rfl, rfl, rfl,
    rfl, rfl, rfl, rfl, rfl, rfl, rfl, rfl, rfl, rfl, rfl, rfl, rfl, rfl, rfl, rfl,
    rfl, rfl, rfl, ?_, ?_, ?_⟩
  · rw [patchForRun]
    rw [assocGet_assocInsert]
    rw [if_pos rfl]
  · rw [patchForRun]
    rw [assocGet_assocInsert]
    rw [if_neg (fun h => hk h.symm)]
  · simp [run, load_from_file, hstore, bind, Except.bind]

/-- C9 witness at a concrete record, key and store. -/
theorem c9_witness :
    ("other" : String) ≠ "run_all" ∧
    assocGet "other" (patchForRun sampleArgs true true).metadata =
      assocGet "other" sampleArgs.metadata ∧
    run (fun pa => if pa = "d/m/args.json" then some sampleArgs else none)
        "d" "m" true true
        (fun a => if a = patchForRun sampleArgs true true then .ok ()
                  else .error (.exc "other")) = .finished := by
  have h := c9_run_patch_frame sampleArgs true true "other"
    (fun pa => if pa = "d/m/args.json" then some sampleArgs else none) "d" "m"
    (by decide) (by simp [argsPath])
  obtain ⟨-, -, -, -, -, -, -, -, -, -, -, -, -, -, -, -, -, -, -, -, -, -, -, -, -, -, -, -, -, -, -, -, -, -, -, h36, h37⟩ := h
  exact ⟨by decide, h36, h37⟩

end Autotune
